import Mathlib

/-!
# structGenerator

A shallow embedding of `structGen/structGenerator.go`, the generator of the
`structs` package: four source files (`structs.go`, `structInterface.go`,
`structMap.go`, `structValidMap.go`) derived from the tables and views of a
database.

* Go strings are `String`; `+=` is `++`.
* The file system is a map from paths to contents; a Go `panic` ends the run
  and is an `Outcome.panic` carrying the file system as it was at that moment.
* The schema provider (`sqlParser`) and `structBuilder.MakeStructStr` are
  fields of an `Env`; the Unicode tables behind `strings.Title` are fields of
  a `Unicode`.
-/

namespace structGenerator

/-! ## `strings.Title` (Go standard library) -/

/-- The part of Go's `unicode` package that `strings.Title` consults for runes
above `0x7F`; the ASCII range is coded explicitly in `isSeparator`/`ToTitle`. -/
structure Unicode where
  IsLetter : Char → Bool
  IsDigit : Char → Bool
  IsSpace : Char → Bool
  ToTitleCase : Char → Char

/-- Tables that classify no rune above `0x7F` and map each to itself; they
agree with every table on ASCII text. -/
def asciiUnicode : Unicode where
  IsLetter := fun _ => false
  IsDigit := fun _ => false
  IsSpace := fun _ => false
  ToTitleCase := fun r => r

/-- Go `strings.isSeparator`: ASCII alphanumerics and underscore are not
separators, other ASCII is; above ASCII letters and digits are not, and
otherwise only spaces are. -/
def isSeparator (U : Unicode) (r : Char) : Bool :=
  if r.toNat ≤ 0x7F then
    if '0'.toNat ≤ r.toNat ∧ r.toNat ≤ '9'.toNat then false
    else if 'a'.toNat ≤ r.toNat ∧ r.toNat ≤ 'z'.toNat then false
    else if 'A'.toNat ≤ r.toNat ∧ r.toNat ≤ 'Z'.toNat then false
    else if r = '_' then false
    else true
  else if U.IsLetter r || U.IsDigit r then false
  else U.IsSpace r

/-- Go `unicode.ToTitle`: for ASCII, title case is upper case. -/
def ToTitle (U : Unicode) (r : Char) : Char :=
  if r.toNat ≤ 0x7F then
    if 'a'.toNat ≤ r.toNat ∧ r.toNat ≤ 'z'.toNat then Char.ofNat (r.toNat - ('a'.toNat - 'A'.toNat))
    else r
  else U.ToTitleCase r

/-- The closure `strings.Title` hands to `strings.Map`, unfolded over the
runes of the string: `prev` is the rune seen last. -/
def titleRunes (U : Unicode) : Char → List Char → List Char
  | _, [] => []
  | prev, r :: rs =>
    (if isSeparator U prev then ToTitle U r else r) :: titleRunes U r rs

/-- Go `strings.Title`: every rune that begins a word is mapped to title case;
`prev` starts as a space. -/
def Title (U : Unicode) (s : String) : String :=
  ⟨titleRunes U ' ' s.data⟩

/-! ## The collaborators -/

/-- The schema provider `sqlParser` and the type mapper
`structBuilder.MakeStructStr`. `MakeStructStr` has no error result in the
source; `none` stands for the run being aborted inside it. -/
structure Env where
  GetTableNames : List String
  GetViewNames : List String
  GetColumnNames : String → List String
  GetColumnTypes : String → List String
  MakeStructStr : String → List String → List String → Option String

/-- The files on disk: the content of each path, `none` where no file is. -/
abbrev Files := String → Option String

/-- The file system with the content of one path replaced. -/
def Files.write (fs : Files) (path content : String) : Files :=
  fun p => if p = path then some content else fs p

/-- How a run ends: normally, or in a panic; either way with the files as the
run left them. -/
inductive Outcome where
  | done (fs : Files)
  | panic (fs : Files)

/-- The files a run left behind. -/
def Outcome.files : Outcome → Files
  | .done fs => fs
  | .panic fs => fs

/-- A run that ended normally. -/
def Outcome.isDone : Outcome → Bool
  | .done _ => true
  | .panic _ => false

/-- Statement sequencing: a panic skips everything after it. -/
def Outcome.andThen (o : Outcome) (f : Files → Outcome) : Outcome :=
  match o with
  | .done fs => f fs
  | .panic fs => .panic fs

/-- Modelled from the spec: `structBuilder.WriteFile` is not in the source
tree; the spec gives it as `overwrite(path, content)`, a full overwrite of the
file. -/
def WriteFile (content path : String) (fs : Files) : Outcome :=
  .done (fs.write path content)

/-- Modelled from the spec: `structBuilder.AddToFile` is not in the source
tree; the spec has it append the text to the end of the existing file content.
A file that is not there is an I/O failure, which aborts the run. -/
def AddToFile (path text : String) (fs : Files) : Outcome :=
  match fs path with
  | some old => .done (fs.write path (old ++ text))
  | none => .panic fs

/-- Insert `frag` immediately before the last `}` of the text, keeping all
that follows it; `none` when the text has no `}`. -/
def insertBeforeLastBrace (frag : List Char) : List Char → Option (List Char)
  | [] => none
  | c :: cs =>
    match insertBeforeLastBrace frag cs with
    | some r => some (c :: r)
    | none => if c = '\x7d' then some (frag ++ c :: cs) else none

/-- Modelled from the spec: `structBuilder.AddToMethodInFile` is not in the
source tree; the spec gives it as `appendBeforeTrailingBrace(path, fragment)`,
which locates the file's final closing-brace character and inserts the
fragment immediately before it, preserving everything after. A missing file or
a file without a closing brace is a failure, which aborts the run. -/
def AddToMethodInFile (path text : String) (fs : Files) : Outcome :=
  match fs path with
  | some old =>
    match insertBeforeLastBrace text.data old.data with
    | some new => .done (fs.write path ⟨new⟩)
    | none => .panic fs
  | none => .panic fs

/-! ## `structGenerator.go` -/

/-- `AppendToStructs`: one struct declaration, appended to `structs.go`. -/
def AppendToStructs (E : Env) (table : String) (fs : Files) : Outcome :=
  let columnList := E.GetColumnNames table
  let columnTypes := E.GetColumnTypes table
  match E.MakeStructStr table columnList columnTypes with
  | none => .panic fs
  | some structStr => AddToFile "./structs/structs.go" structStr fs

/-- The loop of `InitStructs`: `structStr += MakeStructStr(...)` for each
table, aborting at the first table `MakeStructStr` fails on. -/
def InitStructs.loop (E : Env) : List String → String → Option String
  | [], structStr => some structStr
  | table :: rest, structStr =>
    let columnList := E.GetColumnNames table
    let columnTypes := E.GetColumnTypes table
    match E.MakeStructStr table columnList columnTypes with
    | none => none
    | some s => InitStructs.loop E rest (structStr ++ s)

/-- `InitStructs`: writes `structs.go`, a struct for each table and view. -/
def InitStructs (E : Env) (fs : Files) : Outcome :=
  let structStr := "package structs\n"
  let tableList := E.GetTableNames ++ E.GetViewNames
  match InitStructs.loop E tableList structStr with
  | none => .panic fs
  | some structStr => WriteFile structStr "./structs/structs.go" fs

/-- `AppendToStructInterface`: one decode function, appended to
`structInterface.go`. -/
def AppendToStructInterface (U : Unicode) (table : String) (fs : Files) : Outcome :=
  let structInterface := "func EncodeStruct" ++ Title U table ++ "(rows *sqlx.Rows, w http.ResponseWriter) \x7b\n"
  let structInterface := structInterface ++ ("\tsa := make([]" ++ Title U table ++ ", 0)\n")
  let structInterface := structInterface ++ ("\tt := " ++ Title U table ++ "\x7b\x7d\n\n")
  let structInterface := structInterface ++ "\tfor rows.Next() \x7b\n"
  let structInterface := structInterface ++ "\t\t rows.StructScan(&t)\n"
  let structInterface := structInterface ++ "\t\t sa = append(sa, t)\n"
  let structInterface := structInterface ++ "\t\x7d\n\n"
  let structInterface := structInterface ++ "\twrapper := Wrapper\x7bsa, 1.1\x7d\n"
  let structInterface := structInterface ++ "\tenc := json.NewEncoder(w)\n"
  let structInterface := structInterface ++ "\tenc.Encode(wrapper)\n"
  let structInterface := structInterface ++ "\x7d\n"
  AddToFile "./structs/structInterface.go" structInterface fs

/-- The body of the loop of `InitStructInterface`, for one table. -/
def InitStructInterface.step (U : Unicode) (structInterface table : String) : String :=
  let structInterface := structInterface ++ ("func EncodeStruct" ++ Title U table ++ "(rows *sqlx.Rows, w http.ResponseWriter) \x7b\n")
  let structInterface := structInterface ++ ("\tsa := make([]" ++ Title U table ++ ", 0)\n")
  let structInterface := structInterface ++ ("\tt := " ++ Title U table ++ "\x7b\x7d\n\n")
  let structInterface := structInterface ++ "\tfor rows.Next() \x7b\n"
  let structInterface := structInterface ++ "\t\t rows.StructScan(&t)\n"
  let structInterface := structInterface ++ "\t\t sa = append(sa, t)\n"
  let structInterface := structInterface ++ "\t\x7d\n\n"
  let structInterface := structInterface ++ "\twrapper := Wrapper\x7bsa, 1.1\x7d\n"
  let structInterface := structInterface ++ "\tenc := json.NewEncoder(w)\n"
  let structInterface := structInterface ++ "\tenc.Encode(wrapper)\n"
  structInterface ++ "\x7d\n"

/-- `InitStructInterface`: writes `structInterface.go`, the imports and a
decode function for each table and view. -/
def InitStructInterface (U : Unicode) (E : Env) (fs : Files) : Outcome :=
  let structInterface := "package structs\n"
  let structInterface := structInterface ++ "import (\n"
  let structInterface := structInterface ++ "\t\"github.com/jmoiron/sqlx\"\n"
  let structInterface := structInterface ++ "\t\"encoding/json\"\n"
  let structInterface := structInterface ++ "\t\"net/http\"\n"
  let structInterface := structInterface ++ ")\n"
  let tableList := E.GetTableNames ++ E.GetViewNames
  let structInterface := tableList.foldl (InitStructInterface.step U) structInterface
  WriteFile structInterface "./structs/structInterface.go" fs

/-- `AppendToStructValidMap`: one entry, spliced into the map literal of
`structValidMap.go`. -/
def AppendToStructValidMap (table : String) (fs : Files) : Outcome :=
  let structValid := "\t\"" ++ table ++ "\" : true,\n"
  AddToMethodInFile "./structs/structValidMap.go" structValid fs

/-- `InitStructValidMap`: writes `structValidMap.go`, which maps each table
and view name to `true`. -/
def InitStructValidMap (E : Env) (fs : Files) : Outcome :=
  let structValid := "package structs\n"
  let structValid := structValid ++ "var ValidStruct = map[string]bool \x7b\n"
  let tableList := E.GetTableNames ++ E.GetViewNames
  let structValid := tableList.foldl
    (fun structValid table => structValid ++ ("\t\"" ++ table ++ "\" : true,\n")) structValid
  let structValid := structValid ++ "\x7d\n"
  WriteFile structValid "./structs/structValidMap.go" fs

/-- `AppendToStructMap`: one branch, spliced into the dispatch function of
`structMap.go`. -/
def AppendToStructMap (U : Unicode) (table : String) (fs : Files) : Outcome :=
  let structMap := "\tif tableName == \"" ++ table ++ "\"\x7b\n"
  let structMap := structMap ++ ("\t\tEncodeStruct" ++ Title U table ++ "(rows, w)\n")
  let structMap := structMap ++ "\t\x7d\n"
  AddToMethodInFile "./structs/structMap.go" structMap fs

/-- The body of the loop of `InitStructMap`, for one table. -/
def InitStructMap.step (U : Unicode) (structMap table : String) : String :=
  let structMap := structMap ++ ("\tif tableName == \"" ++ table ++ "\"\x7b\n")
  let structMap := structMap ++ ("\t\tEncodeStruct" ++ Title U table ++ "(rows, w)\n")
  structMap ++ "\t\x7d\n"

/-- `InitStructMap`: writes `structMap.go`, one function that maps each table
name to its function of `structInterface.go`. -/
def InitStructMap (U : Unicode) (E : Env) (fs : Files) : Outcome :=
  let structMap := "package structs\n"
  let structMap := structMap ++ "import (\n\t\"github.com/jmoiron/sqlx\"\n"
  let structMap := structMap ++ "\t\"net/http\"\n)\n"
  let structMap := structMap ++ "func MapTableToJson(tableName string, rows *sqlx.Rows, w http.ResponseWriter) \x7b\n"
  let tableList := E.GetTableNames ++ E.GetViewNames
  let structMap := tableList.foldl (InitStructMap.step U) structMap
  let structMap := structMap ++ "\x7d\n"
  WriteFile structMap "./structs/structMap.go" fs

/-- `AppendToStructFiles`: the four appends, in the order of the source. -/
def AppendToStructFiles (U : Unicode) (E : Env) (table : String) (fs : Files) : Outcome :=
  (((AppendToStructs E table fs).andThen
    (AppendToStructInterface U table)).andThen
    (AppendToStructMap U table)).andThen
    (AppendToStructValidMap table)

/-- `InitStructFiles`: writes the four files of the `structs` package. -/
def InitStructFiles (U : Unicode) (E : Env) (fs : Files) : Outcome :=
  (((InitStructs E fs).andThen
    (InitStructInterface U E)).andThen
    (InitStructMap U E)).andThen
    (InitStructValidMap E)

/-! ## A concrete schema -/

/-- Modelled from the spec: the type mapper's known set is not in the source
tree; the spec's example maps `integer` to an integer type and `text` to a
string type, and has any type outside the known set fail. -/
def sampleFieldType (sourceType : String) : Option String :=
  if sourceType = "integer" then some "int64"
  else if sourceType = "text" then some "string"
  else none

/-- The fields of a struct, one per column, in column order; `none` at the
first column whose type is not known. -/
def sampleFields (U : Unicode) : List String → List String → Option String
  | c :: cs, ty :: tys =>
    match sampleFieldType ty with
    | none => none
    | some g =>
      match sampleFields U cs tys with
      | none => none
      | some rest => some ("\t" ++ Title U c ++ " " ++ g ++ "\n" ++ rest)
  | _, _ => some ""

/-- Modelled from the spec: `structBuilder.MakeStructStr` is not in the source
tree; the spec has it render a structure named by the capitalized table name
with one field per column, named by the capitalized column name, in column
order, and fail on an unknown column type. -/
def sampleMakeStructStr (U : Unicode) (table : String) (columnList columnTypes : List String) :
    Option String :=
  match sampleFields U columnList columnTypes with
  | none => none
  | some fields => some ("type " ++ Title U table ++ " struct \x7b\n" ++ fields ++ "\x7d\n")

/-- The schema of the spec's example: one table `user` with the columns
`(id: integer, name: text)` and no view. -/
def userEnv : Env where
  GetTableNames := ["user"]
  GetViewNames := []
  GetColumnNames := fun t => if t = "user" then ["id", "name"] else []
  GetColumnTypes := fun t => if t = "user" then ["integer", "text"] else []
  MakeStructStr := sampleMakeStructStr asciiUnicode

/-- A schema with a column of a type outside the known set: the table `user`
with the columns `(id: integer, photo: blob)`. -/
def blobEnv : Env where
  GetTableNames := ["user"]
  GetViewNames := []
  GetColumnNames := fun t => if t = "user" then ["id", "photo"] else []
  GetColumnTypes := fun t => if t = "user" then ["integer", "blob"] else []
  MakeStructStr := sampleMakeStructStr asciiUnicode

/-- A schema with the table `user` and the view `recent`, and columns also
for a table `post` that is not listed yet. -/
def blogEnv : Env where
  GetTableNames := ["user"]
  GetViewNames := ["recent"]
  GetColumnNames := fun t =>
    if t = "user" then ["id", "name"] else if t = "post" then ["id", "title"] else ["id"]
  GetColumnTypes := fun t =>
    if t = "user" then ["integer", "text"] else if t = "post" then ["integer", "text"]
    else ["integer"]
  MakeStructStr := sampleMakeStructStr asciiUnicode

/-- The schema with one more table, enumerated after the tables it has. -/
def Env.withTable (E : Env) (table : String) : Env :=
  { E with GetTableNames := E.GetTableNames ++ [table] }

/-- A schema whose one table has a hyphen in its name. -/
def orderItemsEnv : Env where
  GetTableNames := ["order-items"]
  GetViewNames := []
  GetColumnNames := fun _ => ["id"]
  GetColumnTypes := fun _ => ["integer"]
  MakeStructStr := sampleMakeStructStr asciiUnicode

/-- A schema with two tables whose names differ in the case of the first
letter only. -/
def caseEnv : Env where
  GetTableNames := ["user", "User"]
  GetViewNames := []
  GetColumnNames := fun _ => ["id"]
  GetColumnTypes := fun _ => ["integer"]
  MakeStructStr := sampleMakeStructStr asciiUnicode

/-- A disk on which none of the files exists yet. -/
def noFiles : Files := fun _ => none

/-! ## Reading the generated files -/

/-- The `tableList` every `Init` function builds: the tables, then the views. -/
def Env.tableList (E : Env) : List String :=
  E.GetTableNames ++ E.GetViewNames

/-- A decode function of `structInterface.go`: its name, the element type of
the sequence `sa` and the type of the instance `t`. -/
structure DecodeFunc where
  name : String
  seqType : String
  instType : String
deriving DecidableEq

/-- The Go text of a decode function. -/
def DecodeFunc.render (d : DecodeFunc) : String :=
  "func " ++ d.name ++ "(rows *sqlx.Rows, w http.ResponseWriter) \x7b\n" ++
  "\tsa := make([]" ++ d.seqType ++ ", 0)\n" ++
  "\tt := " ++ d.instType ++ "\x7b\x7d\n\n" ++
  "\tfor rows.Next() \x7b\n" ++
  "\t\t rows.StructScan(&t)\n" ++
  "\t\t sa = append(sa, t)\n" ++
  "\t\x7d\n\n" ++
  "\twrapper := Wrapper\x7bsa, 1.1\x7d\n" ++
  "\tenc := json.NewEncoder(w)\n" ++
  "\tenc.Encode(wrapper)\n" ++
  "\x7d\n"

/-- The decode function the generator emits for a table. -/
def decodeFor (U : Unicode) (table : String) : DecodeFunc :=
  ⟨"EncodeStruct" ++ Title U table, Title U table, Title U table⟩

/-- A branch of the dispatch function: the name `tableName` is compared with
and the function the branch calls. -/
structure Branch where
  compared : String
  callee : String
deriving DecidableEq

/-- The Go text of a dispatch branch. -/
def Branch.render (b : Branch) : String :=
  "\tif tableName == \"" ++ b.compared ++ "\"\x7b\n" ++
  "\t\t" ++ b.callee ++ "(rows, w)\n" ++
  "\t\x7d\n"

/-- The branch the generator emits for a table. -/
def branchFor (U : Unicode) (table : String) : Branch :=
  ⟨table, "EncodeStruct" ++ Title U table⟩

/-- The Go text of a validity entry. -/
def validEntry (name : String) : String :=
  "\t\"" ++ name ++ "\" : true,\n"

/-- The content of `structs.go` lists the names `ns`: it is the package header
followed by what `MakeStructStr` returns for each of them, in order. -/
def IsStructsFile (E : Env) (content : String) (ns : List String) : Prop :=
  ∃ frags : List String,
    List.Forall₂ (fun n f => E.MakeStructStr n (E.GetColumnNames n) (E.GetColumnTypes n) = some f)
      ns frags ∧
    content = "package structs\n" ++ String.join frags

/-- The content of `structInterface.go` declares the functions `ds`: it is the
package header and imports followed by their texts, in order. -/
def IsDecodeFile (content : String) (ds : List DecodeFunc) : Prop :=
  content =
    "package structs\nimport (\n\t\"github.com/jmoiron/sqlx\"\n\t\"encoding/json\"\n\t\"net/http\"\n)\n" ++
    String.join (ds.map DecodeFunc.render)

/-- The content of `structMap.go` declares one function, `fname`, taking the
table name, the rows and the sink, whose body is the branches `bs`, in order. -/
def IsDispatchFile (content fname : String) (bs : List Branch) : Prop :=
  content =
    "package structs\nimport (\n\t\"github.com/jmoiron/sqlx\"\n\t\"net/http\"\n)\n" ++
    "func " ++ fname ++ "(tableName string, rows *sqlx.Rows, w http.ResponseWriter) \x7b\n" ++
    String.join (bs.map Branch.render) ++ "\x7d\n"

/-- The content of `structValidMap.go` has an entry for each of the names
`ns`, in order, inside the map literal `ValidStruct`. -/
def IsValidFile (content : String) (ns : List String) : Prop :=
  content =
    "package structs\nvar ValidStruct = map[string]bool \x7b\n" ++
    String.join (ns.map validEntry) ++ "\x7d\n"

/-- In the spec's words: the name with its first letter capitalized and every
other character left unchanged. -/
def capitalizeFirst (U : Unicode) (s : String) : String :=
  match s.data with
  | [] => ""
  | c :: cs => ⟨ToTitle U c :: cs⟩

/-- A lowercase ASCII letter, a digit or an underscore. -/
def isLowerIdentRune (c : Char) : Bool :=
  decide (('a'.toNat ≤ c.toNat ∧ c.toNat ≤ 'z'.toNat) ∨
    ('0'.toNat ≤ c.toNat ∧ c.toNat ≤ '9'.toNat) ∨ c.toNat = '_'.toNat)

/-- A name made of lowercase ASCII letters, digits and underscores only. -/
def isLowerIdent (s : String) : Bool :=
  s.data.all isLowerIdentRune

/-- Whether the runes `pat` occur, in a row, somewhere in `text`. -/
def occursInRunes (pat : List Char) : List Char → Bool
  | [] => pat.isEmpty
  | c :: cs => pat.isPrefixOf (c :: cs) || occursInRunes pat cs

/-- Whether the text `pat` occurs somewhere in `text`. -/
def occursIn (pat text : String) : Bool :=
  occursInRunes pat.data text.data

/-! ## Lemmas on strings and files -/

theorem join_nil : String.join [] = "" := rfl

theorem join_cons (s : String) (l : List String) :
    String.join (s :: l) = s ++ String.join l := by
  apply String.ext
  simp [String.data_join]

theorem join_append (l₁ l₂ : List String) :
    String.join (l₁ ++ l₂) = String.join l₁ ++ String.join l₂ := by
  apply String.ext
  simp [String.data_join]

/-- A loop that appends one text per element is the initial text followed by
the joined texts. -/
theorem foldl_append_eq (f : String → String) (l : List String) (init : String) :
    l.foldl (fun acc t => acc ++ f t) init = init ++ String.join (l.map f) := by
  induction l generalizing init with
  | nil => simp [join_nil]
  | cons a l ih => simp [ih, join_cons, String.append_assoc]

theorem write_same (fs : Files) (p c : String) : (fs.write p c) p = some c := by
  simp [Files.write]

theorem write_other (fs : Files) (p q c : String) (h : q ≠ p) : (fs.write p c) q = fs q := by
  simp [Files.write, h]

/-! ## What each `Init` function writes -/

theorem InitStructInterface_step_eq (U : Unicode) (acc table : String) :
    InitStructInterface.step U acc table = acc ++ (decodeFor U table).render := by
  apply String.ext
  simp only [InitStructInterface.step, DecodeFunc.render, decodeFor, String.data_append,
    List.append_assoc]
  rfl

theorem InitStructMap_step_eq (U : Unicode) (acc table : String) :
    InitStructMap.step U acc table = acc ++ (branchFor U table).render := by
  apply String.ext
  simp only [InitStructMap.step, Branch.render, branchFor, String.data_append,
    List.append_assoc]
  rfl

/-- The loop of `InitStructs` succeeds exactly when `MakeStructStr` does on
every table, and then appends the returned texts in order. -/
theorem InitStructs_loop_eq (E : Env) (mk : String → String) (l : List String)
    (h : ∀ t ∈ l, E.MakeStructStr t (E.GetColumnNames t) (E.GetColumnTypes t) = some (mk t))
    (init : String) :
    InitStructs.loop E l init = some (init ++ String.join (l.map mk)) := by
  induction l generalizing init with
  | nil => simp [InitStructs.loop, join_nil]
  | cons a l ih =>
    have ha := h a (List.mem_cons_self a l)
    have hl : ∀ t ∈ l, E.MakeStructStr t (E.GetColumnNames t) (E.GetColumnTypes t) = some (mk t) :=
      fun t ht => h t (List.mem_cons_of_mem a ht)
    simp [InitStructs.loop, ha, ih hl, join_cons, String.append_assoc]

/-- The loop of `InitStructs` aborts when `MakeStructStr` fails on a table. -/
theorem InitStructs_loop_none (E : Env) (l : List String) (t : String) (ht : t ∈ l)
    (h : E.MakeStructStr t (E.GetColumnNames t) (E.GetColumnTypes t) = none) (init : String) :
    InitStructs.loop E l init = none := by
  induction l generalizing init with
  | nil => simp at ht
  | cons a l ih =>
    rcases List.mem_cons.mp ht with rfl | hmem
    · simp [InitStructs.loop, h]
    · cases hmk : E.MakeStructStr a (E.GetColumnNames a) (E.GetColumnTypes a) with
      | none => simp [InitStructs.loop, hmk]
      | some s => simp [InitStructs.loop, hmk, ih hmem]

theorem InitStructs_eq (E : Env) (mk : String → String)
    (h : ∀ t ∈ E.tableList,
      E.MakeStructStr t (E.GetColumnNames t) (E.GetColumnTypes t) = some (mk t))
    (fs : Files) :
    InitStructs E fs =
      .done (fs.write "./structs/structs.go"
        ("package structs\n" ++ String.join (E.tableList.map mk))) := by
  have := InitStructs_loop_eq E mk E.tableList h "package structs\n"
  simp only [Env.tableList] at this
  simp [InitStructs, this, WriteFile, Env.tableList]

theorem InitStructInterface_eq (U : Unicode) (E : Env) (fs : Files) :
    InitStructInterface U E fs =
      .done (fs.write "./structs/structInterface.go"
        ("package structs\nimport (\n\t\"github.com/jmoiron/sqlx\"\n\t\"encoding/json\"\n\t\"net/http\"\n)\n" ++
          String.join ((E.tableList.map (decodeFor U)).map DecodeFunc.render))) := by
  have hstep : InitStructInterface.step U = fun acc t => acc ++ (decodeFor U t).render := by
    funext acc t; exact InitStructInterface_step_eq U acc t
  simp only [InitStructInterface, WriteFile, hstep, foldl_append_eq, Env.tableList, List.map_map]
  rfl

theorem InitStructMap_eq (U : Unicode) (E : Env) (fs : Files) :
    InitStructMap U E fs =
      .done (fs.write "./structs/structMap.go"
        ("package structs\nimport (\n\t\"github.com/jmoiron/sqlx\"\n\t\"net/http\"\n)\n" ++
          "func " ++ "MapTableToJson" ++ "(tableName string, rows *sqlx.Rows, w http.ResponseWriter) \x7b\n" ++
          String.join ((E.tableList.map (branchFor U)).map Branch.render) ++ "\x7d\n")) := by
  have hstep : InitStructMap.step U = fun acc t => acc ++ (branchFor U t).render := by
    funext acc t; exact InitStructMap_step_eq U acc t
  simp only [InitStructMap, WriteFile, hstep, foldl_append_eq, Env.tableList, List.map_map]
  rfl

theorem InitStructValidMap_eq (E : Env) (fs : Files) :
    InitStructValidMap E fs =
      .done (fs.write "./structs/structValidMap.go"
        ("package structs\nvar ValidStruct = map[string]bool \x7b\n" ++
          String.join (E.tableList.map validEntry) ++ "\x7d\n")) := by
  have hstep : (fun (structValid table : String) => structValid ++ ("\t\"" ++ table ++ "\" : true,\n"))
      = fun acc t => acc ++ validEntry t := by
    funext acc t; rfl
  simp only [InitStructValidMap, WriteFile, hstep, foldl_append_eq, Env.tableList]
  rfl

/-- The four writes of `InitStructFiles`, when `MakeStructStr` succeeds on
every table and view. -/
theorem InitStructFiles_eq (U : Unicode) (E : Env) (mk : String → String)
    (h : ∀ t ∈ E.tableList,
      E.MakeStructStr t (E.GetColumnNames t) (E.GetColumnTypes t) = some (mk t))
    (fs : Files) :
    InitStructFiles U E fs =
      .done ((((fs.write "./structs/structs.go"
          ("package structs\n" ++ String.join (E.tableList.map mk))).write
        "./structs/structInterface.go"
          ("package structs\nimport (\n\t\"github.com/jmoiron/sqlx\"\n\t\"encoding/json\"\n\t\"net/http\"\n)\n" ++
            String.join ((E.tableList.map (decodeFor U)).map DecodeFunc.render))).write
        "./structs/structMap.go"
          ("package structs\nimport (\n\t\"github.com/jmoiron/sqlx\"\n\t\"net/http\"\n)\n" ++
            "func " ++ "MapTableToJson" ++ "(tableName string, rows *sqlx.Rows, w http.ResponseWriter) \x7b\n" ++
            String.join ((E.tableList.map (branchFor U)).map Branch.render) ++ "\x7d\n")).write
        "./structs/structValidMap.go"
          ("package structs\nvar ValidStruct = map[string]bool \x7b\n" ++
            String.join (E.tableList.map validEntry) ++ "\x7d\n")) := by
  simp only [InitStructFiles, InitStructs_eq E mk h, Outcome.andThen, InitStructInterface_eq,
    InitStructMap_eq, InitStructValidMap_eq]

/-- The content of each of the four files after `InitStructFiles`. -/
theorem InitStructFiles_files (U : Unicode) (E : Env) (mk : String → String)
    (h : ∀ t ∈ E.tableList,
      E.MakeStructStr t (E.GetColumnNames t) (E.GetColumnTypes t) = some (mk t))
    (fs : Files) :
    (InitStructFiles U E fs).isDone = true ∧
    (InitStructFiles U E fs).files "./structs/structs.go" =
      some ("package structs\n" ++ String.join (E.tableList.map mk)) ∧
    (InitStructFiles U E fs).files "./structs/structInterface.go" =
      some ("package structs\nimport (\n\t\"github.com/jmoiron/sqlx\"\n\t\"encoding/json\"\n\t\"net/http\"\n)\n" ++
        String.join ((E.tableList.map (decodeFor U)).map DecodeFunc.render)) ∧
    (InitStructFiles U E fs).files "./structs/structMap.go" =
      some ("package structs\nimport (\n\t\"github.com/jmoiron/sqlx\"\n\t\"net/http\"\n)\n" ++
        "func " ++ "MapTableToJson" ++ "(tableName string, rows *sqlx.Rows, w http.ResponseWriter) \x7b\n" ++
        String.join ((E.tableList.map (branchFor U)).map Branch.render) ++ "\x7d\n") ∧
    (InitStructFiles U E fs).files "./structs/structValidMap.go" =
      some ("package structs\nvar ValidStruct = map[string]bool \x7b\n" ++
        String.join (E.tableList.map validEntry) ++ "\x7d\n") := by
  rw [InitStructFiles_eq U E mk h fs]
  refine ⟨rfl, ?_, ?_, ?_, ?_⟩ <;> simp only [Outcome.files]
  · rw [write_other _ _ _ _ (by decide), write_other _ _ _ _ (by decide),
      write_other _ _ _ _ (by decide), write_same]
  · rw [write_other _ _ _ _ (by decide), write_other _ _ _ _ (by decide), write_same]
  · rw [write_other _ _ _ _ (by decide), write_same]
  · rw [write_same]

/-- `InitStructFiles` aborts with the files untouched when the loop of
`InitStructs` aborts. -/
theorem InitStructFiles_none (U : Unicode) (E : Env) (fs : Files)
    (h : InitStructs.loop E (E.GetTableNames ++ E.GetViewNames) "package structs\n" = none) :
    InitStructFiles U E fs = .panic fs := by
  simp [InitStructFiles, InitStructs, h, Outcome.andThen]

/-- The four writes of `InitStructFiles` when the loop of `InitStructs`
returns the text `s`. -/
theorem InitStructFiles_some (U : Unicode) (E : Env) (fs : Files) (s : String)
    (h : InitStructs.loop E (E.GetTableNames ++ E.GetViewNames) "package structs\n" = some s) :
    InitStructFiles U E fs =
      .done ((((fs.write "./structs/structs.go" s).write
        "./structs/structInterface.go"
          ("package structs\nimport (\n\t\"github.com/jmoiron/sqlx\"\n\t\"encoding/json\"\n\t\"net/http\"\n)\n" ++
            String.join ((E.tableList.map (decodeFor U)).map DecodeFunc.render))).write
        "./structs/structMap.go"
          ("package structs\nimport (\n\t\"github.com/jmoiron/sqlx\"\n\t\"net/http\"\n)\n" ++
            "func " ++ "MapTableToJson" ++ "(tableName string, rows *sqlx.Rows, w http.ResponseWriter) \x7b\n" ++
            String.join ((E.tableList.map (branchFor U)).map Branch.render) ++ "\x7d\n")).write
        "./structs/structValidMap.go"
          ("package structs\nvar ValidStruct = map[string]bool \x7b\n" ++
            String.join (E.tableList.map validEntry) ++ "\x7d\n")) := by
  have h1 : InitStructs E fs = .done (fs.write "./structs/structs.go" s) := by
    simp [InitStructs, h, WriteFile]
  simp only [InitStructFiles, h1, Outcome.andThen, InitStructInterface_eq,
    InitStructMap_eq, InitStructValidMap_eq]

/-- Writing the four files a second time with the same contents changes
nothing. -/
theorem write_four_twice (fs : Files) (c1 c2 c3 c4 : String) :
    ((((((((fs.write "./structs/structs.go" c1).write "./structs/structInterface.go" c2).write
      "./structs/structMap.go" c3).write "./structs/structValidMap.go" c4).write
      "./structs/structs.go" c1).write "./structs/structInterface.go" c2).write
      "./structs/structMap.go" c3).write "./structs/structValidMap.go" c4) =
    ((((fs.write "./structs/structs.go" c1).write "./structs/structInterface.go" c2).write
      "./structs/structMap.go" c3).write "./structs/structValidMap.go" c4) := by
  funext p
  simp only [Files.write]
  split_ifs <;> rfl

/-- The closing brace of a text that ends in `}` and a newline is its last
one: the fragment goes right before it. -/
theorem insertBeforeLastBrace_footer (frag pre : List Char) :
    insertBeforeLastBrace frag (pre ++ ['\x7d', '\n']) = some (pre ++ frag ++ ['\x7d', '\n']) := by
  induction pre with
  | nil => simp [insertBeforeLastBrace]
  | cons c pre ih => simp [insertBeforeLastBrace, ih]

theorem AddToFile_eq (path text c : String) (fs : Files) (hf : fs path = some c) :
    AddToFile path text fs = .done (fs.write path (c ++ text)) := by
  simp [AddToFile, hf]

/-- On a file that ends in `}` and a newline, `AddToMethodInFile` puts the
text before that closing brace. -/
theorem AddToMethodInFile_eq (path text body : String) (fs : Files)
    (hf : fs path = some (body ++ "\x7d\n")) :
    AddToMethodInFile path text fs = .done (fs.write path (body ++ text ++ "\x7d\n")) := by
  have hd : (body ++ "\x7d\n").data = body.data ++ ['\x7d', '\n'] := rfl
  simp only [AddToMethodInFile, hf, hd, insertBeforeLastBrace_footer]
  rfl

theorem AppendToStructs_eq (E : Env) (table s c : String) (fs : Files)
    (h : E.MakeStructStr table (E.GetColumnNames table) (E.GetColumnTypes table) = some s)
    (hf : fs "./structs/structs.go" = some c) :
    AppendToStructs E table fs = .done (fs.write "./structs/structs.go" (c ++ s)) := by
  simp [AppendToStructs, h, AddToFile_eq _ _ c fs hf]

/-- The text `AppendToStructInterface` hands to `AddToFile`. -/
theorem AppendToStructInterface_text (U : Unicode) (table : String) (fs : Files) :
    AppendToStructInterface U table fs =
      AddToFile "./structs/structInterface.go" (decodeFor U table).render fs := by
  have : InitStructInterface.step U "" table = (decodeFor U table).render := by
    rw [InitStructInterface_step_eq]; rfl
  rw [← this]
  rfl

/-- The text `AppendToStructMap` hands to `AddToMethodInFile`. -/
theorem AppendToStructMap_text (U : Unicode) (table : String) (fs : Files) :
    AppendToStructMap U table fs =
      AddToMethodInFile "./structs/structMap.go" (branchFor U table).render fs := by
  have : InitStructMap.step U "" table = (branchFor U table).render := by
    rw [InitStructMap_step_eq]; rfl
  rw [← this]
  rfl

/-- The text `AppendToStructValidMap` hands to `AddToMethodInFile`. -/
theorem AppendToStructValidMap_text (table : String) (fs : Files) :
    AppendToStructValidMap table fs =
      AddToMethodInFile "./structs/structValidMap.go" (validEntry table) fs := rfl

/-- The four splices of `AppendToStructFiles` on files whose dispatch function
and validity map end in `}` and a newline. -/
theorem AppendToStructFiles_eq (U : Unicode) (E : Env) (table s c1 c2 b3 b4 : String)
    (fs : Files)
    (h : E.MakeStructStr table (E.GetColumnNames table) (E.GetColumnTypes table) = some s)
    (h1 : fs "./structs/structs.go" = some c1)
    (h2 : fs "./structs/structInterface.go" = some c2)
    (h3 : fs "./structs/structMap.go" = some (b3 ++ "\x7d\n"))
    (h4 : fs "./structs/structValidMap.go" = some (b4 ++ "\x7d\n")) :
    AppendToStructFiles U E table fs =
      .done ((((fs.write "./structs/structs.go" (c1 ++ s)).write
        "./structs/structInterface.go" (c2 ++ (decodeFor U table).render)).write
        "./structs/structMap.go" (b3 ++ (branchFor U table).render ++ "\x7d\n")).write
        "./structs/structValidMap.go" (b4 ++ validEntry table ++ "\x7d\n")) := by
  have e1 := AppendToStructs_eq E table s c1 fs h h1
  have e2 := AddToFile_eq "./structs/structInterface.go" (decodeFor U table).render c2
    (fs.write "./structs/structs.go" (c1 ++ s))
    (by rw [write_other _ _ _ _ (by decide)]; exact h2)
  have e3 := AddToMethodInFile_eq "./structs/structMap.go" (branchFor U table).render b3
    ((fs.write "./structs/structs.go" (c1 ++ s)).write
      "./structs/structInterface.go" (c2 ++ (decodeFor U table).render))
    (by rw [write_other _ _ _ _ (by decide), write_other _ _ _ _ (by decide)]; exact h3)
  have e4 := AddToMethodInFile_eq "./structs/structValidMap.go" (validEntry table) b4
    (((fs.write "./structs/structs.go" (c1 ++ s)).write
      "./structs/structInterface.go" (c2 ++ (decodeFor U table).render)).write
      "./structs/structMap.go" (b3 ++ (branchFor U table).render ++ "\x7d\n"))
    (by rw [write_other _ _ _ _ (by decide), write_other _ _ _ _ (by decide),
          write_other _ _ _ _ (by decide)]; exact h4)
  simp only [AppendToStructFiles, e1, Outcome.andThen, AppendToStructInterface_text, e2,
    AppendToStructMap_text, e3, AppendToStructValidMap_text, e4]

/-- Reading the four files back after four writes. -/
theorem read_four (fs : Files) (c1 c2 c3 c4 : String) :
    ((((fs.write "./structs/structs.go" c1).write "./structs/structInterface.go" c2).write
      "./structs/structMap.go" c3).write "./structs/structValidMap.go" c4)
        "./structs/structs.go" = some c1 ∧
    ((((fs.write "./structs/structs.go" c1).write "./structs/structInterface.go" c2).write
      "./structs/structMap.go" c3).write "./structs/structValidMap.go" c4)
        "./structs/structInterface.go" = some c2 ∧
    ((((fs.write "./structs/structs.go" c1).write "./structs/structInterface.go" c2).write
      "./structs/structMap.go" c3).write "./structs/structValidMap.go" c4)
        "./structs/structMap.go" = some c3 ∧
    ((((fs.write "./structs/structs.go" c1).write "./structs/structInterface.go" c2).write
      "./structs/structMap.go" c3).write "./structs/structValidMap.go" c4)
        "./structs/structValidMap.go" = some c4 := by
  refine ⟨?_, ?_, ?_, ?_⟩
  · rw [write_other _ _ _ _ (by decide), write_other _ _ _ _ (by decide),
      write_other _ _ _ _ (by decide), write_same]
  · rw [write_other _ _ _ _ (by decide), write_other _ _ _ _ (by decide), write_same]
  · rw [write_other _ _ _ _ (by decide), write_same]
  · rw [write_same]

/-- The fragments of `structs.go` are those of the names, one each. -/
theorem forall₂_mk (E : Env) (mk : String → String) (l : List String)
    (h : ∀ t ∈ l, E.MakeStructStr t (E.GetColumnNames t) (E.GetColumnTypes t) = some (mk t)) :
    List.Forall₂ (fun n f => E.MakeStructStr n (E.GetColumnNames n) (E.GetColumnTypes n) = some f)
      l (l.map mk) := by
  induction l with
  | nil => exact List.Forall₂.nil
  | cons a l ih =>
    exact List.Forall₂.cons (h a (List.mem_cons_self a l))
      (ih (fun t ht => h t (List.mem_cons_of_mem a ht)))

/-! ## The claims -/

/-- C7. Full-init layout and order: when `MakeStructStr` returns `mk t` for
every table and view `t`, `InitStructs` ends normally and writes to
`structs.go` exactly `package structs\n` followed by the texts `mk t` over
the tables in enumeration order and then the views in enumeration order; and
`structInterface.go`, `structMap.go` and `structValidMap.go` as written by
their `Init` functions list one decode function, one branch and one entry per
name in that same tables-then-views order. -/
theorem C7_full_init_layout_and_order (U : Unicode) (E : Env) (mk : String → String)
    (h : ∀ t ∈ E.GetTableNames ++ E.GetViewNames,
      E.MakeStructStr t (E.GetColumnNames t) (E.GetColumnTypes t) = some (mk t))
    (fs : Files) :
    (InitStructs E fs).isDone = true ∧
    (InitStructs E fs).files "./structs/structs.go" =
      some ("package structs\n" ++
        String.join (E.GetTableNames.map mk ++ E.GetViewNames.map mk)) ∧
    (∃ c, (InitStructInterface U E fs).files "./structs/structInterface.go" = some c ∧
      IsDecodeFile c ((E.GetTableNames ++ E.GetViewNames).map (decodeFor U))) ∧
    (∃ c, (InitStructMap U E fs).files "./structs/structMap.go" = some c ∧
      IsDispatchFile c "MapTableToJson" ((E.GetTableNames ++ E.GetViewNames).map (branchFor U))) ∧
    (∃ c, (InitStructValidMap E fs).files "./structs/structValidMap.go" = some c ∧
      IsValidFile c (E.GetTableNames ++ E.GetViewNames)) := by
  refine ⟨?_, ?_, ?_, ?_, ?_⟩
  · rw [InitStructs_eq E mk h]; rfl
  · rw [InitStructs_eq E mk h]
    simp [Outcome.files, write_same, Env.tableList]
  · rw [InitStructInterface_eq]
    exact ⟨_, write_same _ _ _, rfl⟩
  · rw [InitStructMap_eq]
    exact ⟨_, write_same _ _ _, rfl⟩
  · rw [InitStructValidMap_eq]
    exact ⟨_, write_same _ _ _, rfl⟩

/-- Witness of C7 at the schema of the spec's example. -/
theorem C7_full_init_layout_and_order_witness :
    (∀ t ∈ userEnv.GetTableNames ++ userEnv.GetViewNames,
      userEnv.MakeStructStr t (userEnv.GetColumnNames t) (userEnv.GetColumnTypes t) =
        some ((fun _ => "type User struct \x7b\n\tId int64\n\tName string\n\x7d\n") t)) ∧
    ((InitStructs userEnv noFiles).isDone = true ∧
    (InitStructs userEnv noFiles).files "./structs/structs.go" =
      some ("package structs\n" ++
        String.join (userEnv.GetTableNames.map
            (fun _ => "type User struct \x7b\n\tId int64\n\tName string\n\x7d\n") ++
          userEnv.GetViewNames.map
            (fun _ => "type User struct \x7b\n\tId int64\n\tName string\n\x7d\n"))) ∧
    (∃ c, (InitStructInterface asciiUnicode userEnv noFiles).files
        "./structs/structInterface.go" = some c ∧
      IsDecodeFile c ((userEnv.GetTableNames ++ userEnv.GetViewNames).map
        (decodeFor asciiUnicode))) ∧
    (∃ c, (InitStructMap asciiUnicode userEnv noFiles).files "./structs/structMap.go" = some c ∧
      IsDispatchFile c "MapTableToJson"
        ((userEnv.GetTableNames ++ userEnv.GetViewNames).map (branchFor asciiUnicode))) ∧
    (∃ c, (InitStructValidMap userEnv noFiles).files "./structs/structValidMap.go" = some c ∧
      IsValidFile c (userEnv.GetTableNames ++ userEnv.GetViewNames))) :=
  have h : ∀ t ∈ userEnv.GetTableNames ++ userEnv.GetViewNames,
      userEnv.MakeStructStr t (userEnv.GetColumnNames t) (userEnv.GetColumnTypes t) =
        some ((fun _ => "type User struct \x7b\n\tId int64\n\tName string\n\x7d\n") t) := by
    intro t ht
    have : t = "user" := by simpa [userEnv] using ht
    subst this
    decide
  ⟨h, C7_full_init_layout_and_order asciiUnicode userEnv _ h noFiles⟩

/-- C1. Consistency invariant: when `MakeStructStr` succeeds on every table
and view, `InitStructFiles` ends normally and leaves the four files
`structs.go`, `structInterface.go`, `structMap.go` and `structValidMap.go`
each made of its header and one fragment per name of one and the same list of
names, and a name is in that list exactly when it is in `GetTableNames()` or
in `GetViewNames()`. -/
theorem C1_consistency_invariant (U : Unicode) (E : Env)
    (h : ∀ t ∈ E.GetTableNames ++ E.GetViewNames,
      (E.MakeStructStr t (E.GetColumnNames t) (E.GetColumnTypes t)).isSome = true)
    (fs : Files) :
    (InitStructFiles U E fs).isDone = true ∧
    ∃ (ns : List String) (cs ci cm cv : String),
      (∀ n, n ∈ ns ↔ n ∈ E.GetTableNames ∨ n ∈ E.GetViewNames) ∧
      (InitStructFiles U E fs).files "./structs/structs.go" = some cs ∧
      (InitStructFiles U E fs).files "./structs/structInterface.go" = some ci ∧
      (InitStructFiles U E fs).files "./structs/structMap.go" = some cm ∧
      (InitStructFiles U E fs).files "./structs/structValidMap.go" = some cv ∧
      IsStructsFile E cs ns ∧
      IsDecodeFile ci (ns.map (decodeFor U)) ∧
      IsDispatchFile cm "MapTableToJson" (ns.map (branchFor U)) ∧
      IsValidFile cv ns := by
  have hmk : ∀ t ∈ E.tableList,
      E.MakeStructStr t (E.GetColumnNames t) (E.GetColumnTypes t) =
        some ((fun t => (E.MakeStructStr t (E.GetColumnNames t) (E.GetColumnTypes t)).getD "") t) := by
    intro t ht
    obtain ⟨v, hv⟩ := Option.isSome_iff_exists.mp (h t ht)
    show _ = some ((E.MakeStructStr t (E.GetColumnNames t) (E.GetColumnTypes t)).getD "")
    rw [hv]; rfl
  obtain ⟨hd, h1, h2, h3, h4⟩ := InitStructFiles_files U E _ hmk fs
  exact ⟨hd, E.tableList, _, _, _, _, fun n => by simp [Env.tableList], h1, h2, h3, h4,
    ⟨_, forall₂_mk E _ E.tableList hmk, rfl⟩, rfl, rfl, rfl⟩

set_option maxRecDepth 100000 in
/-- Witness of C1 at the schema of the spec's example: one table `user`. The
four files then hold one struct, one function `EncodeStructUser`, one branch
on `"user"` and one entry for `"user"`. -/
theorem C1_consistency_invariant_witness :
    (∀ t ∈ userEnv.GetTableNames ++ userEnv.GetViewNames,
      (userEnv.MakeStructStr t (userEnv.GetColumnNames t) (userEnv.GetColumnTypes t)).isSome
        = true) ∧
    ((InitStructFiles asciiUnicode userEnv noFiles).isDone = true ∧
    ∃ (ns : List String) (cs ci cm cv : String),
      (∀ n, n ∈ ns ↔ n ∈ userEnv.GetTableNames ∨ n ∈ userEnv.GetViewNames) ∧
      (InitStructFiles asciiUnicode userEnv noFiles).files "./structs/structs.go" = some cs ∧
      (InitStructFiles asciiUnicode userEnv noFiles).files "./structs/structInterface.go"
        = some ci ∧
      (InitStructFiles asciiUnicode userEnv noFiles).files "./structs/structMap.go" = some cm ∧
      (InitStructFiles asciiUnicode userEnv noFiles).files "./structs/structValidMap.go"
        = some cv ∧
      IsStructsFile userEnv cs ns ∧
      IsDecodeFile ci (ns.map (decodeFor asciiUnicode)) ∧
      IsDispatchFile cm "MapTableToJson" (ns.map (branchFor asciiUnicode)) ∧
      IsValidFile cv ns) ∧
    (InitStructFiles asciiUnicode userEnv noFiles).files "./structs/structs.go" =
      some "package structs\ntype User struct \x7b\n\tId int64\n\tName string\n\x7d\n" ∧
    (InitStructFiles asciiUnicode userEnv noFiles).files "./structs/structInterface.go" =
      some ("package structs\nimport (\n\t\"github.com/jmoiron/sqlx\"\n\t\"encoding/json\"\n\t\"net/http\"\n)\n" ++
        "func EncodeStructUser(rows *sqlx.Rows, w http.ResponseWriter) \x7b\n" ++
        "\tsa := make([]User, 0)\n\tt := User\x7b\x7d\n\n" ++
        "\tfor rows.Next() \x7b\n\t\t rows.StructScan(&t)\n\t\t sa = append(sa, t)\n\t\x7d\n\n" ++
        "\twrapper := Wrapper\x7bsa, 1.1\x7d\n\tenc := json.NewEncoder(w)\n" ++
        "\tenc.Encode(wrapper)\n\x7d\n") ∧
    (InitStructFiles asciiUnicode userEnv noFiles).files "./structs/structMap.go" =
      some ("package structs\nimport (\n\t\"github.com/jmoiron/sqlx\"\n\t\"net/http\"\n)\n" ++
        "func MapTableToJson(tableName string, rows *sqlx.Rows, w http.ResponseWriter) \x7b\n" ++
        "\tif tableName == \"user\"\x7b\n\t\tEncodeStructUser(rows, w)\n\t\x7d\n\x7d\n") ∧
    (InitStructFiles asciiUnicode userEnv noFiles).files "./structs/structValidMap.go" =
      some ("package structs\nvar ValidStruct = map[string]bool \x7b\n" ++
        "\t\"user\" : true,\n\x7d\n") :=
  ⟨by decide, C1_consistency_invariant asciiUnicode userEnv (by decide) noFiles,
    by decide, by decide, by decide, by decide⟩

/-- C3. Unknown-type abort: when `MakeStructStr` fails on some table or view
of the schema, `InitStructFiles` panics and every file holds what it held
before the call; and when `MakeStructStr` fails on a table,
`AppendToStructFiles` on that table panics and every file holds what it held
before the call. -/
theorem C3_unknown_type_abort (U : Unicode) (E : Env) (fs : Files) :
    ((∃ t ∈ E.GetTableNames ++ E.GetViewNames,
        E.MakeStructStr t (E.GetColumnNames t) (E.GetColumnTypes t) = none) →
      InitStructFiles U E fs = Outcome.panic fs) ∧
    (∀ table, E.MakeStructStr table (E.GetColumnNames table) (E.GetColumnTypes table) = none →
      AppendToStructFiles U E table fs = Outcome.panic fs) := by
  constructor
  · rintro ⟨t, ht, hnone⟩
    exact InitStructFiles_none U E fs (InitStructs_loop_none E _ t ht hnone _)
  · intro table hnone
    simp [AppendToStructFiles, AppendToStructs, hnone, Outcome.andThen]

/-- Witness of C3: the table `user` has a column of type `blob`, which the
type mapper does not know, and nothing is written. -/
theorem C3_unknown_type_abort_witness :
    (∃ t ∈ blobEnv.GetTableNames ++ blobEnv.GetViewNames,
      blobEnv.MakeStructStr t (blobEnv.GetColumnNames t) (blobEnv.GetColumnTypes t) = none) ∧
    InitStructFiles asciiUnicode blobEnv noFiles = Outcome.panic noFiles ∧
    AppendToStructFiles asciiUnicode blobEnv "user" noFiles = Outcome.panic noFiles :=
  have h : ∃ t ∈ blobEnv.GetTableNames ++ blobEnv.GetViewNames,
      blobEnv.MakeStructStr t (blobEnv.GetColumnNames t) (blobEnv.GetColumnTypes t) = none :=
    ⟨"user", by decide, by decide⟩
  ⟨h, (C3_unknown_type_abort asciiUnicode blobEnv noFiles).1 h,
    (C3_unknown_type_abort asciiUnicode blobEnv noFiles).2 "user" (by decide)⟩

/-- C4. Idempotence of full-init: whatever the files held before, a second
`InitStructFiles` on the files the first one left, with the same schema, ends
as the first one did and leaves every file with the content the first one
left; and the content of the four files after a run that ends normally is the
same from any two prior states of the files. -/
theorem C4_full_init_idempotent (U : Unicode) (E : Env) (fs fs' : Files) :
    InitStructFiles U E (InitStructFiles U E fs).files = InitStructFiles U E fs ∧
    (InitStructFiles U E fs).isDone = (InitStructFiles U E fs').isDone ∧
    ((InitStructFiles U E fs).isDone = true →
      ∀ p ∈ ["./structs/structs.go", "./structs/structInterface.go", "./structs/structMap.go",
          "./structs/structValidMap.go"],
        (InitStructFiles U E fs).files p = (InitStructFiles U E fs').files p) := by
  cases h : InitStructs.loop E (E.GetTableNames ++ E.GetViewNames) "package structs\n" with
  | none =>
    rw [InitStructFiles_none U E fs h, InitStructFiles_none U E fs' h]
    exact ⟨InitStructFiles_none U E _ h, rfl, fun hd => by simp [Outcome.isDone] at hd⟩
  | some s =>
    rw [InitStructFiles_some U E fs s h, InitStructFiles_some U E fs' s h]
    refine ⟨?_, rfl, fun _ p hp => ?_⟩
    · simp only [Outcome.files]
      rw [InitStructFiles_some U E _ s h, write_four_twice]
    · obtain ⟨a1, a2, a3, a4⟩ := read_four fs s
        ("package structs\nimport (\n\t\"github.com/jmoiron/sqlx\"\n\t\"encoding/json\"\n\t\"net/http\"\n)\n" ++
          String.join ((E.tableList.map (decodeFor U)).map DecodeFunc.render))
        ("package structs\nimport (\n\t\"github.com/jmoiron/sqlx\"\n\t\"net/http\"\n)\n" ++
          "func " ++ "MapTableToJson" ++ "(tableName string, rows *sqlx.Rows, w http.ResponseWriter) \x7b\n" ++
          String.join ((E.tableList.map (branchFor U)).map Branch.render) ++ "\x7d\n")
        ("package structs\nvar ValidStruct = map[string]bool \x7b\n" ++
          String.join (E.tableList.map validEntry) ++ "\x7d\n")
      obtain ⟨b1, b2, b3, b4⟩ := read_four fs' s
        ("package structs\nimport (\n\t\"github.com/jmoiron/sqlx\"\n\t\"encoding/json\"\n\t\"net/http\"\n)\n" ++
          String.join ((E.tableList.map (decodeFor U)).map DecodeFunc.render))
        ("package structs\nimport (\n\t\"github.com/jmoiron/sqlx\"\n\t\"net/http\"\n)\n" ++
          "func " ++ "MapTableToJson" ++ "(tableName string, rows *sqlx.Rows, w http.ResponseWriter) \x7b\n" ++
          String.join ((E.tableList.map (branchFor U)).map Branch.render) ++ "\x7d\n")
        ("package structs\nvar ValidStruct = map[string]bool \x7b\n" ++
          String.join (E.tableList.map validEntry) ++ "\x7d\n")
      simp only [Outcome.files]
      simp only [List.mem_cons, List.mem_singleton, List.not_mem_nil, or_false] at hp
      rcases hp with rfl | rfl | rfl | rfl
      · rw [a1, b1]
      · rw [a2, b2]
      · rw [a3, b3]
      · rw [a4, b4]

/-- C2. Append/init equivalence: let the schema `E` have the tables `T1..Tn-1`
and any views, let `Tn` be one more table, and let `MakeStructStr` succeed on
all of them. Then `InitStructFiles` on the schema with `Tn`, and
`InitStructFiles` on `E` followed by `AppendToStructFiles(Tn)`, both end
normally, and each of the four files has in both results the same header
around one fragment per name: in enumeration order `T1..Tn-1, Tn, views` after
the full init and `T1..Tn-1, views, Tn` after the append, so the two differ at
most in the position of the fragment of `Tn`. -/
theorem C2_append_init_equivalence (U : Unicode) (E : Env) (tn : String)
    (h : ∀ t ∈ E.GetTableNames ++ [tn] ++ E.GetViewNames,
      (E.MakeStructStr t (E.GetColumnNames t) (E.GetColumnTypes t)).isSome = true)
    (fs : Files) :
    (InitStructFiles U (E.withTable tn) fs).isDone = true ∧
    ((InitStructFiles U E fs).andThen (AppendToStructFiles U E tn)).isDone = true ∧
    (E.GetTableNames ++ E.GetViewNames ++ [tn]).Perm
      (E.GetTableNames ++ [tn] ++ E.GetViewNames) ∧
    (∃ c c', (InitStructFiles U (E.withTable tn) fs).files "./structs/structs.go" = some c ∧
      ((InitStructFiles U E fs).andThen (AppendToStructFiles U E tn)).files
        "./structs/structs.go" = some c' ∧
      IsStructsFile E c (E.GetTableNames ++ [tn] ++ E.GetViewNames) ∧
      IsStructsFile E c' (E.GetTableNames ++ E.GetViewNames ++ [tn])) ∧
    (∃ c c', (InitStructFiles U (E.withTable tn) fs).files "./structs/structInterface.go"
        = some c ∧
      ((InitStructFiles U E fs).andThen (AppendToStructFiles U E tn)).files
        "./structs/structInterface.go" = some c' ∧
      IsDecodeFile c ((E.GetTableNames ++ [tn] ++ E.GetViewNames).map (decodeFor U)) ∧
      IsDecodeFile c' ((E.GetTableNames ++ E.GetViewNames ++ [tn]).map (decodeFor U))) ∧
    (∃ c c', (InitStructFiles U (E.withTable tn) fs).files "./structs/structMap.go" = some c ∧
      ((InitStructFiles U E fs).andThen (AppendToStructFiles U E tn)).files
        "./structs/structMap.go" = some c' ∧
      IsDispatchFile c "MapTableToJson"
        ((E.GetTableNames ++ [tn] ++ E.GetViewNames).map (branchFor U)) ∧
      IsDispatchFile c' "MapTableToJson"
        ((E.GetTableNames ++ E.GetViewNames ++ [tn]).map (branchFor U))) ∧
    (∃ c c', (InitStructFiles U (E.withTable tn) fs).files "./structs/structValidMap.go"
        = some c ∧
      ((InitStructFiles U E fs).andThen (AppendToStructFiles U E tn)).files
        "./structs/structValidMap.go" = some c' ∧
      IsValidFile c (E.GetTableNames ++ [tn] ++ E.GetViewNames) ∧
      IsValidFile c' (E.GetTableNames ++ E.GetViewNames ++ [tn])) := by
  -- the text `MakeStructStr` returns on each name
  have hmk : ∀ t ∈ E.GetTableNames ++ [tn] ++ E.GetViewNames,
      E.MakeStructStr t (E.GetColumnNames t) (E.GetColumnTypes t) =
        some ((fun t => (E.MakeStructStr t (E.GetColumnNames t) (E.GetColumnTypes t)).getD "") t) := by
    intro t ht
    obtain ⟨v, hv⟩ := Option.isSome_iff_exists.mp (h t ht)
    show _ = some ((E.MakeStructStr t (E.GetColumnNames t) (E.GetColumnTypes t)).getD "")
    rw [hv]; rfl
  generalize hmkdef :
    (fun t => (E.MakeStructStr t (E.GetColumnNames t) (E.GetColumnTypes t)).getD "") = mk at hmk
  have hfull : ∀ t ∈ (E.withTable tn).tableList,
      (E.withTable tn).MakeStructStr t ((E.withTable tn).GetColumnNames t)
        ((E.withTable tn).GetColumnTypes t) = some (mk t) := hmk
  have hbase : ∀ t ∈ E.tableList,
      E.MakeStructStr t (E.GetColumnNames t) (E.GetColumnTypes t) = some (mk t) := by
    intro t ht
    apply hmk t
    simp only [Env.tableList, List.mem_append] at ht
    simp only [List.mem_append]
    tauto
  have htn : E.MakeStructStr tn (E.GetColumnNames tn) (E.GetColumnTypes tn) = some (mk tn) :=
    hmk tn (by simp)
  -- the full init
  obtain ⟨fd, f1, f2, f3, f4⟩ := InitStructFiles_files U (E.withTable tn) mk hfull fs
  -- the init without `tn`, then the append
  have hinit := InitStructFiles_eq U E mk hbase fs
  obtain ⟨r1, r2, r3, r4⟩ := read_four fs
    ("package structs\n" ++ String.join (E.tableList.map mk))
    ("package structs\nimport (\n\t\"github.com/jmoiron/sqlx\"\n\t\"encoding/json\"\n\t\"net/http\"\n)\n" ++
      String.join ((E.tableList.map (decodeFor U)).map DecodeFunc.render))
    ("package structs\nimport (\n\t\"github.com/jmoiron/sqlx\"\n\t\"net/http\"\n)\n" ++
      "func " ++ "MapTableToJson" ++ "(tableName string, rows *sqlx.Rows, w http.ResponseWriter) \x7b\n" ++
      String.join ((E.tableList.map (branchFor U)).map Branch.render) ++ "\x7d\n")
    ("package structs\nvar ValidStruct = map[string]bool \x7b\n" ++
      String.join (E.tableList.map validEntry) ++ "\x7d\n")
  have happ := AppendToStructFiles_eq U E tn (mk tn) _ _ _ _ _ htn r1 r2 r3 r4
  have hincr : (InitStructFiles U E fs).andThen (AppendToStructFiles U E tn) = _ :=
    (congrArg (fun o => Outcome.andThen o (AppendToStructFiles U E tn)) hinit).trans happ
  rw [hincr]
  obtain ⟨a1, a2, a3, a4⟩ := read_four
    ((((fs.write "./structs/structs.go"
        ("package structs\n" ++ String.join (E.tableList.map mk))).write
      "./structs/structInterface.go"
        ("package structs\nimport (\n\t\"github.com/jmoiron/sqlx\"\n\t\"encoding/json\"\n\t\"net/http\"\n)\n" ++
          String.join ((E.tableList.map (decodeFor U)).map DecodeFunc.render))).write
      "./structs/structMap.go"
        ("package structs\nimport (\n\t\"github.com/jmoiron/sqlx\"\n\t\"net/http\"\n)\n" ++
          "func " ++ "MapTableToJson" ++ "(tableName string, rows *sqlx.Rows, w http.ResponseWriter) \x7b\n" ++
          String.join ((E.tableList.map (branchFor U)).map Branch.render) ++ "\x7d\n")).write
      "./structs/structValidMap.go"
        ("package structs\nvar ValidStruct = map[string]bool \x7b\n" ++
          String.join (E.tableList.map validEntry) ++ "\x7d\n"))
    ("package structs\n" ++ String.join (E.tableList.map mk) ++ mk tn)
    ("package structs\nimport (\n\t\"github.com/jmoiron/sqlx\"\n\t\"encoding/json\"\n\t\"net/http\"\n)\n" ++
      String.join ((E.tableList.map (decodeFor U)).map DecodeFunc.render) ++
      (decodeFor U tn).render)
    ("package structs\nimport (\n\t\"github.com/jmoiron/sqlx\"\n\t\"net/http\"\n)\n" ++
      "func " ++ "MapTableToJson" ++ "(tableName string, rows *sqlx.Rows, w http.ResponseWriter) \x7b\n" ++
      String.join ((E.tableList.map (branchFor U)).map Branch.render) ++
      (branchFor U tn).render ++ "\x7d\n")
    ("package structs\nvar ValidStruct = map[string]bool \x7b\n" ++
      String.join (E.tableList.map validEntry) ++ validEntry tn ++ "\x7d\n")
  refine ⟨fd, rfl, ?_, ⟨_, _, f1, a1, ?_, ?_⟩, ⟨_, _, f2, a2, ?_, ?_⟩, ⟨_, _, f3, a3, ?_, ?_⟩,
    ⟨_, _, f4, a4, ?_, ?_⟩⟩
  · simp only [List.append_assoc]
    exact List.Perm.append_left _ List.perm_append_comm
  · exact ⟨_, forall₂_mk E mk _ hmk, rfl⟩
  · refine ⟨(E.GetTableNames ++ E.GetViewNames ++ [tn]).map mk, forall₂_mk E mk _ ?_, ?_⟩
    · intro t ht
      apply hmk t
      simp only [List.mem_append] at ht ⊢
      tauto
    · simp [Env.tableList, join_append, join_cons, join_nil, String.append_assoc]
  · rfl
  · simp [IsDecodeFile, Env.tableList, join_append, join_cons, join_nil, String.append_assoc]
  · rfl
  · simp [IsDispatchFile, Env.tableList, join_append, join_cons, join_nil, String.append_assoc]
  · rfl
  · simp [IsValidFile, Env.tableList, join_append, join_cons, join_nil, String.append_assoc]

set_option maxRecDepth 100000 in
/-- Witness of C2: the table `post` joins the table `user` and the view
`recent`. The validity map lists `user, post, recent` after the full init and
`user, recent, post` after the append. -/
theorem C2_append_init_equivalence_witness :
    (∀ t ∈ blogEnv.GetTableNames ++ ["post"] ++ blogEnv.GetViewNames,
      (blogEnv.MakeStructStr t (blogEnv.GetColumnNames t) (blogEnv.GetColumnTypes t)).isSome
        = true) ∧
    (InitStructFiles asciiUnicode (blogEnv.withTable "post") noFiles).files
        "./structs/structValidMap.go" =
      some ("package structs\nvar ValidStruct = map[string]bool \x7b\n" ++
        "\t\"user\" : true,\n\t\"post\" : true,\n\t\"recent\" : true,\n\x7d\n") ∧
    ((InitStructFiles asciiUnicode blogEnv noFiles).andThen
        (AppendToStructFiles asciiUnicode blogEnv "post")).files "./structs/structValidMap.go" =
      some ("package structs\nvar ValidStruct = map[string]bool \x7b\n" ++
        "\t\"user\" : true,\n\t\"recent\" : true,\n\t\"post\" : true,\n\x7d\n") ∧
    (∃ c c', (InitStructFiles asciiUnicode (blogEnv.withTable "post") noFiles).files
        "./structs/structMap.go" = some c ∧
      ((InitStructFiles asciiUnicode blogEnv noFiles).andThen
        (AppendToStructFiles asciiUnicode blogEnv "post")).files "./structs/structMap.go"
          = some c' ∧
      IsDispatchFile c "MapTableToJson"
        ((blogEnv.GetTableNames ++ ["post"] ++ blogEnv.GetViewNames).map
          (branchFor asciiUnicode)) ∧
      IsDispatchFile c' "MapTableToJson"
        ((blogEnv.GetTableNames ++ blogEnv.GetViewNames ++ ["post"]).map
          (branchFor asciiUnicode))) :=
  ⟨by decide, by decide, by decide,
    (C2_append_init_equivalence asciiUnicode blogEnv "post" (by decide) noFiles).2.2.2.2.2.1⟩

/-- Among the branches of pairwise distinct names, those that compare with a
name of the list are the one branch emitted for it. -/
theorem filter_branchFor (U : Unicode) (l : List String) (hnd : l.Nodup) (n : String)
    (hn : n ∈ l) :
    (l.map (branchFor U)).filter (fun b => b.compared = n) = [branchFor U n] := by
  induction l with
  | nil => simp at hn
  | cons a l ih =>
    have hnd' := List.nodup_cons.mp hnd
    by_cases hna : a = n
    · subst hna
      have hrest : (l.map (branchFor U)).filter (fun b => b.compared = a) = [] := by
        rw [List.filter_eq_nil_iff]
        intro b hb
        obtain ⟨t, ht, rfl⟩ := List.mem_map.mp hb
        have : t ≠ a := fun h => hnd'.1 (h ▸ ht)
        simpa [branchFor] using this
      simp [List.filter_cons, branchFor, hrest] at *
    · have hmem : n ∈ l := by
        rcases List.mem_cons.mp hn with h | h
        · exact absurd h.symm hna
        · exact h
      simp [List.filter_cons, branchFor, hna] at *
      simpa [branchFor] using ih hnd'.2 hmem

/-! ### Naming -/

/-- `strings.Title` pairs every rune with the rune before it (a space before
the first) and maps to title case exactly the runes that follow a
separator. -/
theorem titleRunes_zipWith (U : Unicode) (prev : Char) (l : List Char) :
    titleRunes U prev l =
      List.zipWith (fun p r => if isSeparator U p then ToTitle U r else r) (prev :: l) l := by
  induction l generalizing prev with
  | nil => simp [titleRunes]
  | cons r rs ih => simp [titleRunes, ih r]

/-- Past a rune that is no separator, text without separators is left as it
is. -/
theorem titleRunes_no_separator (U : Unicode) (prev : Char) (l : List Char)
    (hp : isSeparator U prev = false) (hl : ∀ c ∈ l, isSeparator U c = false) :
    titleRunes U prev l = l := by
  induction l generalizing prev with
  | nil => simp [titleRunes]
  | cons r rs ih =>
    have hr : isSeparator U r = false := hl r (List.mem_cons_self r rs)
    have hrs : ∀ c ∈ rs, isSeparator U c = false := fun c hc => hl c (List.mem_cons_of_mem r hc)
    simp [titleRunes, hp, ih r hr hrs]

theorem isSeparator_space (U : Unicode) : isSeparator U ' ' = true := rfl

/-- On a name without separators `strings.Title` capitalizes the first letter
and leaves every other character unchanged. -/
theorem Title_eq_capitalizeFirst (U : Unicode) (s : String)
    (h : ∀ c ∈ s.data, isSeparator U c = false) :
    Title U s = capitalizeFirst U s := by
  obtain ⟨l⟩ := s
  cases l with
  | nil => rfl
  | cons r rs =>
    have hr : isSeparator U r = false := h r (List.mem_cons_self r rs)
    have hrs : ∀ c ∈ rs, isSeparator U c = false := fun c hc => h c (List.mem_cons_of_mem r hc)
    simp [Title, capitalizeFirst, titleRunes, isSeparator_space,
      titleRunes_no_separator U r rs hr hrs]

/-! ### Dispatch completeness -/

set_option maxRecDepth 100000 in
/-- C5 (as the claim states it) fails: the schema with the one table
`order-items` has pairwise distinct names and a validity entry for
`order-items`, and the one branch of the dispatch function that compares with
`order-items` calls `EncodeStructOrder-Items`, not `EncodeStructOrder-items`,
the name built from the table name with its first letter capitalized. -/
theorem C5_dispatch_completeness_counterexample :
    (orderItemsEnv.GetTableNames ++ orderItemsEnv.GetViewNames).Nodup ∧
    (InitStructValidMap orderItemsEnv noFiles).files "./structs/structValidMap.go" =
      some ("package structs\nvar ValidStruct = map[string]bool \x7b\n" ++
        "\t\"order-items\" : true,\n\x7d\n") ∧
    (InitStructMap asciiUnicode orderItemsEnv noFiles).files "./structs/structMap.go" =
      some ("package structs\nimport (\n\t\"github.com/jmoiron/sqlx\"\n\t\"net/http\"\n)\n" ++
        "func MapTableToJson(tableName string, rows *sqlx.Rows, w http.ResponseWriter) \x7b\n" ++
        "\tif tableName == \"order-items\"\x7b\n\t\tEncodeStructOrder-Items(rows, w)\n\t\x7d\n\x7d\n") ∧
    (∀ U : Unicode,
      ((orderItemsEnv.GetTableNames ++ orderItemsEnv.GetViewNames).map (branchFor U)).filter
          (fun b => b.compared = "order-items") =
        [{ compared := "order-items", callee := "EncodeStructOrder-Items" }] ∧
      "EncodeStruct" ++ capitalizeFirst U "order-items" = "EncodeStructOrder-items" ∧
      ((orderItemsEnv.GetTableNames ++ orderItemsEnv.GetViewNames).map (branchFor U)).filter
          (fun b => b.compared = "order-items") ≠
        [{ compared := "order-items",
           callee := "EncodeStruct" ++ capitalizeFirst U "order-items" }]) := by
  refine ⟨by decide, by decide, by decide, fun U => ?_⟩
  have h1 : ((orderItemsEnv.GetTableNames ++ orderItemsEnv.GetViewNames).map
      (branchFor U)).filter (fun b => b.compared = "order-items") =
        [{ compared := "order-items", callee := "EncodeStructOrder-Items" }] := rfl
  have h2 : "EncodeStruct" ++ capitalizeFirst U "order-items" = "EncodeStructOrder-items" := rfl
  refine ⟨h1, h2, ?_⟩
  rw [h1, h2]
  decide

/-- C5 (amended). Dispatch completeness: for a schema whose table and view
names are pairwise distinct, `structValidMap.go` as written by
`InitStructValidMap` has its entries for the names of the schema and
`structMap.go` as written by `InitStructMap` has one branch per name, and for
every name `n` with a validity entry the branches whose compared name equals
`n` are exactly one branch, which calls `EncodeStruct` followed by
`strings.Title(n)`, the name of the decode function emitted for `n`; when `n`
has no separator character that is `EncodeStruct` followed by `n` with its
first letter capitalized. -/
theorem C5_dispatch_completeness (U : Unicode) (E : Env) (fs : Files)
    (hnd : (E.GetTableNames ++ E.GetViewNames).Nodup) :
    ∃ cv cm,
      (InitStructValidMap E fs).files "./structs/structValidMap.go" = some cv ∧
      (InitStructMap U E fs).files "./structs/structMap.go" = some cm ∧
      IsValidFile cv (E.GetTableNames ++ E.GetViewNames) ∧
      IsDispatchFile cm "MapTableToJson"
        ((E.GetTableNames ++ E.GetViewNames).map (branchFor U)) ∧
      ∀ n ∈ E.GetTableNames ++ E.GetViewNames,
        ((E.GetTableNames ++ E.GetViewNames).map (branchFor U)).filter
            (fun b => b.compared = n) =
          [{ compared := n, callee := "EncodeStruct" ++ Title U n }] ∧
        "EncodeStruct" ++ Title U n = (decodeFor U n).name ∧
        ((∀ c ∈ n.data, isSeparator U c = false) →
          ((E.GetTableNames ++ E.GetViewNames).map (branchFor U)).filter
              (fun b => b.compared = n) =
            [{ compared := n, callee := "EncodeStruct" ++ capitalizeFirst U n }]) := by
  refine ⟨_, _, ?_, ?_, rfl, rfl, fun n hn => ⟨filter_branchFor U _ hnd n hn, rfl, fun hsep => ?_⟩⟩
  · rw [InitStructValidMap_eq]; exact write_same _ _ _
  · rw [InitStructMap_eq]; exact write_same _ _ _
  · rw [← Title_eq_capitalizeFirst U n hsep]
    exact filter_branchFor U _ hnd n hn

/-- Witness of C5 (amended) at the schema with the tables `user` and `post`
and the view `recent`, none of which has a separator character. -/
theorem C5_dispatch_completeness_witness :
    ((blogEnv.withTable "post").GetTableNames ++ (blogEnv.withTable "post").GetViewNames =
      ["user", "post", "recent"] ∧
     (∀ c ∈ "post".data, isSeparator asciiUnicode c = false)) ∧
    (((blogEnv.withTable "post").GetTableNames ++
        (blogEnv.withTable "post").GetViewNames).map (branchFor asciiUnicode)).filter
          (fun b => b.compared = "post") =
      [{ compared := "post", callee := "EncodeStructPost" }] ∧
    ∃ cv cm,
      (InitStructValidMap (blogEnv.withTable "post") noFiles).files
        "./structs/structValidMap.go" = some cv ∧
      (InitStructMap asciiUnicode (blogEnv.withTable "post") noFiles).files
        "./structs/structMap.go" = some cm ∧
      IsValidFile cv ((blogEnv.withTable "post").GetTableNames ++
        (blogEnv.withTable "post").GetViewNames) ∧
      IsDispatchFile cm "MapTableToJson"
        (((blogEnv.withTable "post").GetTableNames ++
          (blogEnv.withTable "post").GetViewNames).map (branchFor asciiUnicode)) ∧
      ∀ n ∈ (blogEnv.withTable "post").GetTableNames ++ (blogEnv.withTable "post").GetViewNames,
        (((blogEnv.withTable "post").GetTableNames ++
          (blogEnv.withTable "post").GetViewNames).map (branchFor asciiUnicode)).filter
            (fun b => b.compared = n) =
          [{ compared := n, callee := "EncodeStruct" ++ Title asciiUnicode n }] ∧
        "EncodeStruct" ++ Title asciiUnicode n = (decodeFor asciiUnicode n).name ∧
        ((∀ c ∈ n.data, isSeparator asciiUnicode c = false) →
          (((blogEnv.withTable "post").GetTableNames ++
            (blogEnv.withTable "post").GetViewNames).map (branchFor asciiUnicode)).filter
              (fun b => b.compared = n) =
            [{ compared := n, callee := "EncodeStruct" ++ capitalizeFirst asciiUnicode n }]) :=
  ⟨⟨by decide, by decide⟩, by decide,
    C5_dispatch_completeness asciiUnicode (blogEnv.withTable "post") noFiles (by decide)⟩

set_option maxRecDepth 100000 in
/-- C6 (as the claim states it) fails: for the table `order-items` the decode
function, the type it allocates and the function its dispatch branch calls
are named with `Order-Items`, where the letter after the hyphen is capitalized
too, and not with `Order-items`, the name with its first letter capitalized
and every other character unchanged. -/
theorem C6_naming_counterexample :
    (InitStructInterface asciiUnicode orderItemsEnv noFiles).files
        "./structs/structInterface.go" =
      some ("package structs\nimport (\n\t\"github.com/jmoiron/sqlx\"\n\t\"encoding/json\"\n\t\"net/http\"\n)\n" ++
        "func EncodeStructOrder-Items(rows *sqlx.Rows, w http.ResponseWriter) \x7b\n" ++
        "\tsa := make([]Order-Items, 0)\n\tt := Order-Items\x7b\x7d\n\n" ++
        "\tfor rows.Next() \x7b\n\t\t rows.StructScan(&t)\n\t\t sa = append(sa, t)\n\t\x7d\n\n" ++
        "\twrapper := Wrapper\x7bsa, 1.1\x7d\n\tenc := json.NewEncoder(w)\n" ++
        "\tenc.Encode(wrapper)\n\x7d\n") ∧
    (InitStructMap asciiUnicode orderItemsEnv noFiles).files "./structs/structMap.go" =
      some ("package structs\nimport (\n\t\"github.com/jmoiron/sqlx\"\n\t\"net/http\"\n)\n" ++
        "func MapTableToJson(tableName string, rows *sqlx.Rows, w http.ResponseWriter) \x7b\n" ++
        "\tif tableName == \"order-items\"\x7b\n\t\tEncodeStructOrder-Items(rows, w)\n\t\x7d\n\x7d\n") ∧
    capitalizeFirst asciiUnicode "order-items" = "Order-items" ∧
    (∀ U : Unicode, Title U "order-items" = "Order-Items" ∧
      Title U "order-items" ≠ capitalizeFirst U "order-items") := by
  refine ⟨by decide, by decide, by decide, fun U => ?_⟩
  have h1 : Title U "order-items" = "Order-Items" := rfl
  have h2 : capitalizeFirst U "order-items" = "Order-items" := rfl
  refine ⟨h1, ?_⟩
  rw [h1, h2]
  decide

/-- C6 (amended). Naming: for every table name, the decode function emitted
for it by `InitStructInterface` and by `AppendToStructInterface`, the type it
allocates, and the function its dispatch branch calls (`InitStructMap`,
`AppendToStructMap`) are named with `strings.Title` of the table name, the
function name being that prefixed by `EncodeStruct`. `strings.Title` maps to
title case the first character and every character that follows a separator,
and leaves every other character unchanged; on a name without separator
characters it is the name with its first letter capitalized and every other
character unchanged. -/
theorem C6_naming_by_title (U : Unicode) (E : Env) (table : String) (fs : Files) :
    AppendToStructInterface U table fs =
      AddToFile "./structs/structInterface.go"
        (DecodeFunc.render
          { name := "EncodeStruct" ++ Title U table, seqType := Title U table,
            instType := Title U table }) fs ∧
    (∃ c, (InitStructInterface U E fs).files "./structs/structInterface.go" = some c ∧
      IsDecodeFile c ((E.GetTableNames ++ E.GetViewNames).map fun t =>
        { name := "EncodeStruct" ++ Title U t, seqType := Title U t, instType := Title U t })) ∧
    AppendToStructMap U table fs =
      AddToMethodInFile "./structs/structMap.go"
        (Branch.render { compared := table, callee := "EncodeStruct" ++ Title U table }) fs ∧
    (∃ c, (InitStructMap U E fs).files "./structs/structMap.go" = some c ∧
      IsDispatchFile c "MapTableToJson" ((E.GetTableNames ++ E.GetViewNames).map fun t =>
        { compared := t, callee := "EncodeStruct" ++ Title U t })) ∧
    (Title U table).data =
      List.zipWith (fun prev r => if isSeparator U prev then ToTitle U r else r)
        (' ' :: table.data) table.data ∧
    ((∀ c ∈ table.data, isSeparator U c = false) → Title U table = capitalizeFirst U table) := by
  refine ⟨AppendToStructInterface_text U table fs, ?_, AppendToStructMap_text U table fs, ?_,
    titleRunes_zipWith U ' ' table.data, Title_eq_capitalizeFirst U table⟩
  · rw [InitStructInterface_eq]; exact ⟨_, write_same _ _ _, rfl⟩
  · rw [InitStructMap_eq]; exact ⟨_, write_same _ _ _, rfl⟩

/-- Witness of C6 (amended) at the table `user`, a name without separators:
`strings.Title` gives `User`. -/
theorem C6_naming_by_title_witness :
    (∀ c ∈ "user".data, isSeparator asciiUnicode c = false) ∧
    Title asciiUnicode "user" = capitalizeFirst asciiUnicode "user" ∧
    Title asciiUnicode "user" = "User" :=
  ⟨by decide, (C6_naming_by_title asciiUnicode userEnv "user" noFiles).2.2.2.2.2 (by decide),
    by decide⟩

/-! ### The dispatch function -/

set_option maxRecDepth 100000 in
/-- C8 (as the claim states it) fails: for the one-table schema `user` the
function `InitStructMap` declares in `structMap.go` is named `MapTableToJson`;
the name `mapTableNameToEncoder` occurs nowhere in the file. -/
theorem C8_dispatch_function_counterexample :
    (InitStructMap asciiUnicode userEnv noFiles).files "./structs/structMap.go" =
      some ("package structs\nimport (\n\t\"github.com/jmoiron/sqlx\"\n\t\"net/http\"\n)\n" ++
        "func MapTableToJson(tableName string, rows *sqlx.Rows, w http.ResponseWriter) \x7b\n" ++
        "\tif tableName == \"user\"\x7b\n\t\tEncodeStructUser(rows, w)\n\t\x7d\n\x7d\n") ∧
    occursIn "mapTableNameToEncoder"
      ("package structs\nimport (\n\t\"github.com/jmoiron/sqlx\"\n\t\"net/http\"\n)\n" ++
        "func MapTableToJson(tableName string, rows *sqlx.Rows, w http.ResponseWriter) \x7b\n" ++
        "\tif tableName == \"user\"\x7b\n\t\tEncodeStructUser(rows, w)\n\t\x7d\n\x7d\n") = false ∧
    occursIn "func MapTableToJson("
      ("package structs\nimport (\n\t\"github.com/jmoiron/sqlx\"\n\t\"net/http\"\n)\n" ++
        "func MapTableToJson(tableName string, rows *sqlx.Rows, w http.ResponseWriter) \x7b\n" ++
        "\tif tableName == \"user\"\x7b\n\t\tEncodeStructUser(rows, w)\n\t\x7d\n\x7d\n") = true := by
  refine ⟨by decide, by decide, by decide⟩

/-- C8 (amended). Dispatch function: for every schema, `structMap.go` as
written by `InitStructMap` is the package header and imports followed by one
function, named `MapTableToJson`, taking the table name, the rows and the
sink, whose body is a sequence of branches, one per table and view in
enumeration order, each comparing `tableName` with that name and calling the
decode function emitted for that table. -/
theorem C8_dispatch_function_MapTableToJson (U : Unicode) (E : Env) (fs : Files) :
    ∃ c, (InitStructMap U E fs).files "./structs/structMap.go" = some c ∧
      IsDispatchFile c "MapTableToJson"
        ((E.GetTableNames ++ E.GetViewNames).map fun t =>
          { compared := t, callee := (decodeFor U t).name }) ∧
      ((E.GetTableNames ++ E.GetViewNames).map fun t =>
          ({ compared := t, callee := (decodeFor U t).name } : Branch)).length =
        E.GetTableNames.length + E.GetViewNames.length := by
  rw [InitStructMap_eq]
  exact ⟨_, write_same _ _ _, rfl, by simp⟩

/-! ### The decode function -/

/-- C9. Wrapper shape: the decode function text emitted for a table, by
`AppendToStructInterface` and for every table and view by
`InitStructInterface`, is one and the same text `text T`, with `T` the
`strings.Title` of the table name: it initialises `sa` as `make([]T, 0)`,
appends `t` to `sa` once in the body of the loop `for rows.Next()`, and builds
the wrapper as `Wrapper{sa, 1.1}`, from the two values `sa` and `1.1`. -/
theorem C9_wrapper_shape (U : Unicode) (E : Env) (table : String) (fs : Files) :
    ∃ text : String → String,
      (∀ T, text T =
        "func EncodeStruct" ++ T ++ "(rows *sqlx.Rows, w http.ResponseWriter) \x7b\n" ++
        "\tsa := make([]" ++ T ++ ", 0)\n" ++
        "\tt := " ++ T ++ "\x7b\x7d\n\n" ++
        "\tfor rows.Next() \x7b\n" ++
        "\t\t rows.StructScan(&t)\n" ++
        "\t\t sa = append(sa, t)\n" ++
        "\t\x7d\n\n" ++
        "\twrapper := Wrapper\x7bsa, 1.1\x7d\n" ++
        "\tenc := json.NewEncoder(w)\n" ++
        "\tenc.Encode(wrapper)\n" ++
        "\x7d\n") ∧
      AppendToStructInterface U table fs =
        AddToFile "./structs/structInterface.go" (text (Title U table)) fs ∧
      (InitStructInterface U E fs).files "./structs/structInterface.go" =
        some ("package structs\nimport (\n\t\"github.com/jmoiron/sqlx\"\n\t\"encoding/json\"\n\t\"net/http\"\n)\n" ++
          String.join ((E.GetTableNames ++ E.GetViewNames).map fun t => text (Title U t))) := by
  refine ⟨fun T => DecodeFunc.render ⟨"EncodeStruct" ++ T, T, T⟩, fun T => ?_, ?_, ?_⟩
  · apply String.ext
    simp only [DecodeFunc.render, String.data_append, List.append_assoc]
    rfl
  · exact AppendToStructInterface_text U table fs
  · rw [InitStructInterface_eq]
    simp only [Outcome.files, write_same, Env.tableList, List.map_map]
    rfl

/-! ### Distinct names -/

theorem toNat_ofNat_small (n : Nat) (h : n < 0xd800) : (Char.ofNat n).toNat = n := by
  have hv : n.isValidChar := Or.inl h
  unfold Char.ofNat
  rw [dif_pos hv]
  simp [Char.ofNatAux, Char.toNat, UInt32.toNat]

theorem toNat_injective (c d : Char) (h : c.toNat = d.toNat) : c = d := by
  rw [← Char.ofNat_toNat c, ← Char.ofNat_toNat d, h]

/-- The range a lowercase letter, digit or underscore lies in. -/
theorem isLowerIdentRune_iff (c : Char) :
    isLowerIdentRune c = true ↔
      (97 ≤ c.toNat ∧ c.toNat ≤ 122) ∨ (48 ≤ c.toNat ∧ c.toNat ≤ 57) ∨ c.toNat = 95 := by
  simp only [isLowerIdentRune, decide_eq_true_eq]
  rfl

theorem isSeparator_lowerIdent (U : Unicode) (c : Char) (h : isLowerIdentRune c = true) :
    isSeparator U c = false := by
  rw [isLowerIdentRune_iff] at h
  have e0 : '0'.toNat = 48 := rfl
  have e9 : '9'.toNat = 57 := rfl
  have ea : 'a'.toNat = 97 := rfl
  have ez : 'z'.toNat = 122 := rfl
  have eA : 'A'.toNat = 65 := rfl
  have eZ : 'Z'.toNat = 90 := rfl
  simp only [isSeparator, e0, e9, ea, ez, eA, eZ]
  by_cases hu : c = '_'
  · subst hu; rfl
  · have hne : c.toNat ≠ 95 := fun hc => hu (toNat_injective c '_' hc)
    split_ifs <;> first | rfl | omega

/-- The code point of the title case of a lowercase letter, digit or
underscore. -/
theorem ToTitle_lowerIdent (U : Unicode) (c : Char) (h : isLowerIdentRune c = true) :
    (ToTitle U c).toNat = if 97 ≤ c.toNat ∧ c.toNat ≤ 122 then c.toNat - 32 else c.toNat := by
  rw [isLowerIdentRune_iff] at h
  have ea : 'a'.toNat = 97 := rfl
  have ez : 'z'.toNat = 122 := rfl
  have eA : 'A'.toNat = 65 := rfl
  simp only [ToTitle, ea, ez, eA]
  split_ifs with h1 h2 h2
  · exact toNat_ofNat_small _ (by omega)
  · rfl
  · omega
  · omega

theorem ToTitle_injective_lowerIdent (U : Unicode) (c d : Char)
    (hc : isLowerIdentRune c = true) (hd : isLowerIdentRune d = true)
    (h : ToTitle U c = ToTitle U d) : c = d := by
  have hn := congrArg Char.toNat h
  rw [ToTitle_lowerIdent U c hc, ToTitle_lowerIdent U d hd] at hn
  rw [isLowerIdentRune_iff] at hc hd
  apply toNat_injective
  split_ifs at hn <;> omega

/-- On names of lowercase letters, digits and underscores `strings.Title` is
injective. -/
theorem Title_injective_lowerIdent (U : Unicode) (a b : String)
    (ha : isLowerIdent a = true) (hb : isLowerIdent b = true)
    (h : Title U a = Title U b) : a = b := by
  have ha' : ∀ c ∈ a.data, isLowerIdentRune c = true := by
    simpa [isLowerIdent, List.all_eq_true] using ha
  have hb' : ∀ c ∈ b.data, isLowerIdentRune c = true := by
    simpa [isLowerIdent, List.all_eq_true] using hb
  rw [Title_eq_capitalizeFirst U a (fun c hc => isSeparator_lowerIdent U c (ha' c hc)),
    Title_eq_capitalizeFirst U b (fun c hc => isSeparator_lowerIdent U c (hb' c hc))] at h
  obtain ⟨la⟩ := a
  obtain ⟨lb⟩ := b
  cases la with
  | nil =>
    cases lb with
    | nil => rfl
    | cons d ds => simp [capitalizeFirst] at h; exact absurd (congrArg String.data h) (by simp)
  | cons c cs =>
    cases lb with
    | nil => simp [capitalizeFirst] at h; exact absurd (congrArg String.data h) (by simp)
    | cons d ds =>
      have h := congrArg String.data h
      simp only [capitalizeFirst, List.cons.injEq] at h
      have hcd := ToTitle_injective_lowerIdent U c d (ha' c (List.mem_cons_self c cs))
        (hb' d (List.mem_cons_self d ds)) h.1
      rw [hcd, h.2]

theorem encodeName_injective (s t : String) (h : "EncodeStruct" ++ s = "EncodeStruct" ++ t) :
    s = t := by
  have := congrArg String.data h
  simp only [String.data_append, List.append_cancel_left_eq] at this
  exact String.ext this

set_option maxRecDepth 100000 in
/-- C10 (as the claim states it) fails: the names `user` and `User` are
different, yet the decode function emitted for each is `EncodeStructUser`, and
for the schema with these two tables `structInterface.go` declares
`EncodeStructUser` twice. -/
theorem C10_distinct_names_counterexample :
    "user" ≠ "User" ∧
    (caseEnv.GetTableNames ++ caseEnv.GetViewNames).Nodup ∧
    (∀ U : Unicode, "EncodeStruct" ++ Title U "user" = "EncodeStruct" ++ Title U "User") ∧
    ((caseEnv.GetTableNames ++ caseEnv.GetViewNames).map
        fun t => (decodeFor asciiUnicode t).name) = ["EncodeStructUser", "EncodeStructUser"] ∧
    (∃ c, (InitStructInterface asciiUnicode caseEnv noFiles).files
        "./structs/structInterface.go" = some c ∧
      IsDecodeFile c
        [{ name := "EncodeStructUser", seqType := "User", instType := "User" },
         { name := "EncodeStructUser", seqType := "User", instType := "User" }]) := by
  refine ⟨by decide, by decide, fun U => rfl, by decide, ?_⟩
  rw [InitStructInterface_eq]
  exact ⟨_, write_same _ _ _, rfl⟩

/-- C10 (amended). Distinct titles give distinct functions: the decode
function names emitted for two names `a` and `b` are equal exactly when
`strings.Title(a)` and `strings.Title(b)` are, so they differ whenever the
names differ in more than the case of a letter that begins a word, and in
particular for two different names made of lowercase ASCII letters, digits and
underscores; and a schema whose names have pairwise distinct `strings.Title`
forms yields a `structInterface.go` with no function declared twice, in which
the function a dispatch branch calls is declared for the table of that branch
only. -/
theorem C10_distinct_titles_distinct_functions (U : Unicode) (E : Env) (fs : Files)
    (a b : String) :
    ("EncodeStruct" ++ Title U a = "EncodeStruct" ++ Title U b ↔ Title U a = Title U b) ∧
    (isLowerIdent a = true → isLowerIdent b = true → a ≠ b →
      "EncodeStruct" ++ Title U a ≠ "EncodeStruct" ++ Title U b) ∧
    (((E.GetTableNames ++ E.GetViewNames).map (Title U)).Nodup →
      ∃ c, (InitStructInterface U E fs).files "./structs/structInterface.go" = some c ∧
        IsDecodeFile c ((E.GetTableNames ++ E.GetViewNames).map (decodeFor U)) ∧
        (((E.GetTableNames ++ E.GetViewNames).map (decodeFor U)).map DecodeFunc.name).Nodup ∧
        ∀ t ∈ E.GetTableNames ++ E.GetViewNames, ∀ t' ∈ E.GetTableNames ++ E.GetViewNames,
          (branchFor U t).callee = (decodeFor U t').name → t' = t) := by
  refine ⟨⟨encodeName_injective _ _, fun h => by rw [h]⟩, ?_, ?_⟩
  · intro ha hb hab h
    exact hab (Title_injective_lowerIdent U a b ha hb (encodeName_injective _ _ h))
  · intro hnd
    refine ⟨_, ?_, rfl, ?_, ?_⟩
    · rw [InitStructInterface_eq]; exact write_same _ _ _
    · have hmap : ((E.GetTableNames ++ E.GetViewNames).map (decodeFor U)).map DecodeFunc.name =
          ((E.GetTableNames ++ E.GetViewNames).map (Title U)).map (fun s => "EncodeStruct" ++ s) := by
        simp [List.map_map, decodeFor, Function.comp_def]
      rw [hmap]
      exact hnd.map (fun s t h => encodeName_injective s t h)
    · intro t ht t' ht' h
      exact List.inj_on_of_nodup_map hnd ht' ht (encodeName_injective _ _ h).symm

/-- Witness of C10 (amended) at the names `user` and `post` of the schema with
the tables `user` and `post` and the view `recent`. -/
theorem C10_distinct_titles_distinct_functions_witness :
    (isLowerIdent "user" = true ∧ isLowerIdent "post" = true ∧ "user" ≠ "post") ∧
    "EncodeStruct" ++ Title asciiUnicode "user" ≠ "EncodeStruct" ++ Title asciiUnicode "post" ∧
    (((blogEnv.withTable "post").GetTableNames ++
        (blogEnv.withTable "post").GetViewNames).map (Title asciiUnicode)).Nodup ∧
    ((((blogEnv.withTable "post").GetTableNames ++
        (blogEnv.withTable "post").GetViewNames).map (decodeFor asciiUnicode)).map
      DecodeFunc.name) = ["EncodeStructUser", "EncodeStructPost", "EncodeStructRecent"] ∧
    (∃ c, (InitStructInterface asciiUnicode (blogEnv.withTable "post") noFiles).files
        "./structs/structInterface.go" = some c ∧
      IsDecodeFile c (((blogEnv.withTable "post").GetTableNames ++
        (blogEnv.withTable "post").GetViewNames).map (decodeFor asciiUnicode)) ∧
      ((((blogEnv.withTable "post").GetTableNames ++
        (blogEnv.withTable "post").GetViewNames).map (decodeFor asciiUnicode)).map
          DecodeFunc.name).Nodup ∧
      ∀ t ∈ (blogEnv.withTable "post").GetTableNames ++ (blogEnv.withTable "post").GetViewNames,
        ∀ t' ∈ (blogEnv.withTable "post").GetTableNames ++
            (blogEnv.withTable "post").GetViewNames,
          (branchFor asciiUnicode t).callee = (decodeFor asciiUnicode t').name → t' = t) :=
  ⟨⟨by decide, by decide, by decide⟩,
    (C10_distinct_titles_distinct_functions asciiUnicode (blogEnv.withTable "post") noFiles
      "user" "post").2.1 (by decide) (by decide) (by decide),
    by decide, by decide,
    (C10_distinct_titles_distinct_functions asciiUnicode (blogEnv.withTable "post") noFiles
      "user" "post").2.2 (by decide)⟩

end structGenerator
